import Mathlib

/-!
Shallow embedding of the runtime demangling-tree builder in
`src/stdlib/public/runtime/Demangle.cpp`
(`_buildDemanglingForNominalType` and `_swift_buildDemanglingForMetadata`),
together with theorems settling the frozen claims about it.

Modelling conventions, used consistently below:
* `Demangle::NodePointer` is `Option Node`; the null pointer is `none`.
* `Node` carries its kind, optional text payload, and child pointers
  (the C++ `Children` vector stores `NodePointer`s, so children are
  `Option Node`; the builder sometimes stores a null child slot).
* Reading through a null `NodePointer` (`->getKind()`, `->getChild(i)`) is
  undefined behaviour in the source; it is modelled by total accessors that
  return the designated junk kind `Kind.Invalid` resp. the null pointer.
  Likewise `std::vector::front()` on an empty vector (the zero-argument
  function path) is modelled as returning the null pointer.
* The external decoders `demangleTypeAsNode` / `demangleSymbolAsNode` live in
  `lib/Basic/Demangle.cpp`, outside the excerpt; the builder is parameterised
  over them as functions `String → Option Node`, so every theorem holds for
  an arbitrary decoder.
* A metadata record is modelled by the fields the builder actually reads;
  e.g. a protocol descriptor is read only through its `Name`, and
  `GenericParams.NumPrimaryParams` slots of generic arguments are modelled
  as the list of those arguments (a valid descriptor's slot count equals
  the declared parameter count).
-/

/-- The node kinds used by the builder (subset of `Demangle::Node::Kind`,
plus kinds a decoder may produce and the junk kind `Invalid` modelling an
undefined read through a null pointer).  `Node::Kind::Type` is rendered
`Typ` (the word is reserved in Lean) and `Node::Kind::ThrowsAnnotation` is
rendered `ThrowsAnnot`. -/
inductive Kind where
  | Module
  | Class
  | Struct
  | Enum
  | Protocol
  | ProtocolList
  | Identifier
  | Typ
  | BoundGenericClass
  | BoundGenericEnum
  | BoundGenericStructure
  | TypeList
  | FunctionType
  | ObjCBlock
  | CFunctionPointer
  | ThinFunctionType
  | ArgumentTuple
  | ReturnType
  | ThrowsAnnot
  | InOut
  | NonVariadicTuple
  | TupleElement
  | TupleElementName
  | ExistentialMetatype
  | Metatype
  | Global
  | TypeMangling
  | Invalid
  deriving DecidableEq, Repr

/-- A demangling-tree node: kind, optional text payload, child pointers.
Children are stored as `NodePointer`s (`Option Node`) exactly as the C++
`Children : std::vector<NodePointer>` does. -/
inductive Node where
  | mk (kind : Kind) (text : Option String) (children : List (Option Node))

/-- `Demangle::NodePointer`: a possibly-null reference to a node. -/
def NodePointer : Type := Option Node

def Node.kind : Node → Kind
  | .mk k _ _ => k

def Node.text : Node → Option String
  | .mk _ t _ => t

def Node.children : Node → List (Option Node)
  | .mk _ _ c => c

/-- `p->getKind()`: reading the kind through a null pointer is undefined
behaviour in the source; modelled as the junk kind `Invalid`. -/
def kindOf : Option Node → Kind
  | some n => n.kind
  | none => Kind.Invalid

/-- `p->getChild(i)`: child access through a null pointer, or out of range,
is undefined behaviour in the source; modelled as the null pointer. -/
def childOf (p : Option Node) (i : Nat) : Option Node :=
  match p with
  | some n => n.children.getD i none
  | none => none

/-- `std::vector::front()` over the built argument list: undefined on an
empty vector (the zero-argument function path); modelled as the null
pointer. -/
def frontNP (l : List (Option Node)) : Option Node :=
  l.headD none

/-- Byte-wise lexicographic strict comparison on character lists, the
`strcmp(a, b) < 0` test of the protocol sort (for valid C strings, i.e. no
interior NUL; UTF-8 byte order and scalar-value order agree). -/
def lexLt : List Char → List Char → Bool
  | [], [] => false
  | [], _ :: _ => true
  | _ :: _, [] => false
  | a :: as, b :: bs =>
    if a.toNat < b.toNat then true
    else if b.toNat < a.toNat then false
    else lexLt as bs

/-- `strcmp(a->Name, b->Name) < 0` on protocol name strings. -/
def strcmpLt (a b : String) : Bool :=
  lexLt a.data b.data

/-- The non-strict order induced by the `strcmp` comparator (`a ≤ b` iff
not `b < a`); the order the sorted protocol list is sorted by. -/
def nameLe (a b : String) : Prop :=
  strcmpLt b a = false

instance : DecidableRel nameLe := fun a b =>
  inferInstanceAs (Decidable (strcmpLt b a = false))

/-- The `std::sort` of the collected protocol descriptors by
`strcmp(a->Name, b->Name) < 0` (lines 158–161).  Since only the name of a
protocol descriptor is ever read, descriptors are modelled by their names,
and two entries equivalent under the comparator are equal strings; hence
every comparison sort produces the same list — the unique `nameLe`-sorted
permutation — and the sort is modelled by insertion sort. -/
def sortNames (l : List String) : List String :=
  l.insertionSort nameLe

/-- One iteration of the protocol loop (lines 163–193): decode the name as
a symbol; on failure synthesize `Type(Protocol(Module("__ObjC"),
Identifier(name)))` (`MANGLING_MODULE_OBJC` is `"__ObjC"`); on success dig
through `Global → TypeMangling → Type → ProtocolList → TypeList → Type` by
five `getChild(0)` steps.  The resulting pointer is the entry appended to
the type list. -/
def protoEntry (demangleSymbolAsNode : String → Option Node) (name : String) :
    Option Node :=
  match demangleSymbolAsNode name with
  | none =>
      some (Node.mk Kind.Typ none
        [some (Node.mk Kind.Protocol none
          [some (Node.mk Kind.Module (some "__ObjC") []),
           some (Node.mk Kind.Identifier (some name) [])])])
  | some pn =>
      childOf (childOf (childOf (childOf (childOf (some pn) 0) 0) 0) 0) 0

/-- Lines 74–75: if the parent's root is a `Type` node, unwrap to its
single child. -/
def unwrapType (p : Option Node) : Option Node :=
  if kindOf p = Kind.Typ then childOf p 0 else p

/-- Lines 72–85: splice the recursively built parent tree into the freshly
demangled base-name node `node`: rebuild the nominal node with the
(unwrapped) parent as first child and the old second child (the
identifier) preserved, and re-wrap in a `Type` node.  No null check is
performed on either pointer. -/
def attachParent (node parentNP : Option Node) : Option Node :=
  let parentNode := unwrapType parentNP
  let typeNode := childOf node 0
  some (Node.mk Kind.Typ none
    [some (Node.mk (kindOf typeNode) none
      [parentNode, childOf typeNode 1])])

/-- Lines 272–299, label handling: walk the element slots with the label
cursor.  `labels` is the remaining label string (`none` models a null
`Labels` pointer).  Per slot: if a space exists in the remainder
(`strchr(labels, ' ')`), the segment before it (non-empty only) becomes a
`TupleElementName` child and the cursor advances past the space; otherwise
the slot is unlabeled and the cursor does not move.  The already-built
element-type pointers are supplied in `tys` (building an element type
never touches the label cursor, so pre-building them is equivalent to the
source's interleaving). -/
def tupleCombine : Option (List Char) → List (Option Node) → List (Option Node)
  | _, [] => []
  | none, ty :: tys =>
      some (Node.mk Kind.TupleElement none [ty]) :: tupleCombine none tys
  | some ls, ty :: tys =>
      if ' ' ∈ ls then
        let seg := ls.takeWhile (fun c => c ≠ ' ')
        let rest := (ls.dropWhile (fun c => c ≠ ' ')).drop 1
        let children :=
          if seg.isEmpty then [ty]
          else [some (Node.mk Kind.TupleElementName (some (String.mk seg)) []), ty]
        some (Node.mk Kind.TupleElement none children) :: tupleCombine (some rest) tys
      else
        some (Node.mk Kind.TupleElement none [ty]) :: tupleCombine (some ls) tys

/-- Lines 227–231: wrap an argument's tree in `InOut` when its
by-reference flag is set. -/
def inOutWrap (input : Option Node) (flag : Bool) : Option Node :=
  if flag then some (Node.mk Kind.InOut none [input]) else input

/-- The nominal metadata kinds routed to `_buildDemanglingForNominalType`
(Class, Enum, Optional, Struct). -/
inductive NominalKind where
  | Class
  | Enum
  | Optional
  | Struct
  deriving DecidableEq, Repr

/-- Lines 43, 51, 58: the bound-generic node kind chosen per nominal
metadata kind (Enum and Optional share the enum path). -/
def boundGenericKind : NominalKind → Kind
  | NominalKind.Class => Kind.BoundGenericClass
  | NominalKind.Enum => Kind.BoundGenericEnum
  | NominalKind.Optional => Kind.BoundGenericEnum
  | NominalKind.Struct => Kind.BoundGenericStructure

/-- `FunctionMetadataConvention` (lines 208–221). -/
inductive FunctionConvention where
  | Swift
  | Block
  | CFunctionPointer
  | Thin
  deriving DecidableEq, Repr

/-- Lines 208–221: the fixed convention-to-node-kind table. -/
def convKind : FunctionConvention → Kind
  | FunctionConvention.Swift => Kind.FunctionType
  | FunctionConvention.Block => Kind.ObjCBlock
  | FunctionConvention.CFunctionPointer => Kind.CFunctionPointer
  | FunctionConvention.Thin => Kind.ThinFunctionType

/-- A runtime metadata record, modelled by the fields the builder reads:
* `nominal`: kind, optional parent type, descriptor name string, and the
  `NumPrimaryParams` generic-argument slots read from the instance record
  (a valid record's slot count equals the declared parameter count);
* `objCClassWrapper`: the class name obtained from `class_getName`;
* `foreignClass`: the foreign name string;
* `existential`: the `Name` strings of the referenced protocol
  descriptors (the only field of a protocol descriptor the builder reads);
* `function`: convention, the parallel (argument-type, by-reference-flag)
  array, result type, throws flag;
* `tuple`: the packed label string (`none` models a null `Labels`
  pointer) and the element types;
* `rawBuffer` (`MetadataKind::Opaque` in the source), the two
  heap-local-variable kinds and `errorObject`: the kinds with no
  derivable symbolic name. -/
inductive Metadata where
  | nominal (kind : NominalKind) (parent : Option Metadata) (name : String)
      (genericArgs : List Metadata)
  | objCClassWrapper (className : String)
  | foreignClass (name : String)
  | existential (protocols : List String)
  | existentialMetatype (instanceType : Metadata)
  | function (convention : FunctionConvention)
      (arguments : List (Metadata × Bool)) (resultType : Metadata)
      (throwsFlag : Bool)
  | metatype (instanceType : Metadata)
  | tuple (labels : Option (List Char)) (elements : List Metadata)
  | rawBuffer
  | heapLocalVariable
  | heapGenericLocalVariable
  | errorObject

/-- `swift::_swift_buildDemanglingForMetadata` (lines 110–312), with the
nominal cases inlined from `_buildDemanglingForNominalType` (lines 30–107).
Parameterised over the external decoders `demangleTypeAsNode` and
`demangleSymbolAsNode` of `lib/Basic/Demangle.cpp`.  The early-`return
nullptr` loop over generic arguments is rendered as building all argument
trees and testing whether any is null, which yields the same result; the
release build's `assert`s are no-ops. -/
def build (demangleTypeAsNode demangleSymbolAsNode : String → Option Node) :
    Metadata → Option Node
  | Metadata.nominal k parent name genericArgs =>
      -- lines 66–68: demangle the base name
      let node := demangleTypeAsNode name
      -- lines 71–85: demangle the parent, if any
      let node :=
        match parent with
        | none => node
        | some p => attachParent node (build demangleTypeAsNode demangleSymbolAsNode p)
      -- lines 87–106: if generic, demangle the type parameters
      if 0 < genericArgs.length then
        let params := genericArgs.attach.map
          (fun g => build demangleTypeAsNode demangleSymbolAsNode g.1)
        if params.any Option.isNone then none
        else
          some (Node.mk (boundGenericKind k) none
            [node, some (Node.mk Kind.TypeList none params)])
      else node
  | Metadata.objCClassWrapper className =>
      -- lines 119–137 (SWIFT_OBJC_INTEROP): the magic "__ObjC" module
      some (Node.mk Kind.Class none
        [some (Node.mk Kind.Module (some "__ObjC") []),
         some (Node.mk Kind.Identifier (some className) [])])
  | Metadata.foreignClass name =>
      -- lines 138–142
      demangleTypeAsNode name
  | Metadata.existential protocols =>
      -- lines 143–196: sort by name, then append one entry per protocol
      some (Node.mk Kind.ProtocolList none
        [some (Node.mk Kind.TypeList none
          ((sortNames protocols).map (protoEntry demangleSymbolAsNode)))])
  | Metadata.existentialMetatype instanceType =>
      -- lines 197–203: no Type wrapper, no null check on the instance
      some (Node.mk Kind.ExistentialMetatype none
        [build demangleTypeAsNode demangleSymbolAsNode instanceType])
  | Metadata.function convention arguments resultType throwsFlag =>
      -- lines 204–257
      let inputs := arguments.attach.map
        (fun a => inOutWrap (build demangleTypeAsNode demangleSymbolAsNode a.1.1) a.1.2)
      let totalInput :=
        if 1 < inputs.length then
          some (Node.mk Kind.NonVariadicTuple none inputs)
        else frontNP inputs
      let args := Node.mk Kind.ArgumentTuple none [totalInput]
      let result := Node.mk Kind.ReturnType none
        [build demangleTypeAsNode demangleSymbolAsNode resultType]
      some (Node.mk (convKind convention) none
        ((if throwsFlag then [some (Node.mk Kind.ThrowsAnnot none [])] else []) ++
         [some args, some result]))
  | Metadata.metatype instanceType =>
      -- lines 259–267: extra Type wrapper around the instance tree
      some (Node.mk Kind.Metatype none
        [some (Node.mk Kind.Typ none
          [build demangleTypeAsNode demangleSymbolAsNode instanceType])])
  | Metadata.tuple labels elements =>
      -- lines 268–300
      let tys := elements.attach.map
        (fun t => build demangleTypeAsNode demangleSymbolAsNode t.1)
      some (Node.mk Kind.NonVariadicTuple none (tupleCombine labels tys))
  | Metadata.rawBuffer => none
  | Metadata.heapLocalVariable => none
  | Metadata.heapGenericLocalVariable => none
  | Metadata.errorObject => none
termination_by m => sizeOf m
decreasing_by
  all_goals simp_wf
  · omega
  · have h := List.sizeOf_lt_of_mem g.2
    omega
  · obtain ⟨⟨m, b⟩, hm⟩ := a
    have h := List.sizeOf_lt_of_mem hm
    simp at h ⊢
    omega
  · omega
  · have h := List.sizeOf_lt_of_mem t.2
    omega

/-- The base node of the nominal builder after the base-name demangling
(lines 66–68) and the parent splice (lines 71–85): this is the value of
the local `node` just before the generic-parameter step. -/
def nominalBase (demangleTypeAsNode demangleSymbolAsNode : String → Option Node)
    (parent : Option Metadata) (name : String) : Option Node :=
  match parent with
  | none => demangleTypeAsNode name
  | some p =>
      attachParent (demangleTypeAsNode name)
        (build demangleTypeAsNode demangleSymbolAsNode p)

lemma build_nominal_eq (dt ds : String → Option Node) (k : NominalKind)
    (parent : Option Metadata) (name : String) (genericArgs : List Metadata) :
    build dt ds (Metadata.nominal k parent name genericArgs) =
      if 0 < genericArgs.length then
        if (genericArgs.map (build dt ds)).any Option.isNone then none
        else
          some (Node.mk (boundGenericKind k) none
            [nominalBase dt ds parent name,
             some (Node.mk Kind.TypeList none (genericArgs.map (build dt ds)))])
      else nominalBase dt ds parent name := by
  cases parent <;>
    (simp only [build, nominalBase]
     rw [List.attach_map_val genericArgs (build dt ds)])

lemma build_function_eq (dt ds : String → Option Node)
    (conv : FunctionConvention) (arguments : List (Metadata × Bool))
    (resultType : Metadata) (throwsFlag : Bool) :
    build dt ds (Metadata.function conv arguments resultType throwsFlag) =
      some (Node.mk (convKind conv) none
        ((if throwsFlag then [some (Node.mk Kind.ThrowsAnnot none [])] else []) ++
         [some (Node.mk Kind.ArgumentTuple none
            [if 1 < arguments.length then
               some (Node.mk Kind.NonVariadicTuple none
                 (arguments.map (fun p => inOutWrap (build dt ds p.1) p.2)))
             else frontNP (arguments.map (fun p => inOutWrap (build dt ds p.1) p.2))]),
          some (Node.mk Kind.ReturnType none [build dt ds resultType])])) := by
  have h := List.attach_map_val arguments
    (fun p => inOutWrap (build dt ds p.1) p.2)
  simp only [build, h, List.length_map]

lemma build_tuple_eq (dt ds : String → Option Node)
    (labels : Option (List Char)) (elements : List Metadata) :
    build dt ds (Metadata.tuple labels elements) =
      some (Node.mk Kind.NonVariadicTuple none
        (tupleCombine labels (elements.map (build dt ds)))) := by
  have h := List.attach_map_val elements (build dt ds)
  simp [build, h]

lemma charToNatInj {x y : Char} (h : x.toNat = y.toNat) : x = y :=
  Char.ext (UInt32.toNat.inj h)

lemma lexLt_cons_iff (x y : Char) (xs ys : List Char) :
    lexLt (x :: xs) (y :: ys) = true ↔
      x.toNat < y.toNat ∨ (x.toNat = y.toNat ∧ lexLt xs ys = true) := by
  simp only [lexLt]
  split_ifs with h1 h2
  · simp [h1]
  · simp
    omega
  · have hx : x.toNat = y.toNat := by omega
    simp [hx, h1]

lemma lexLt_asymm : ∀ (a b : List Char),
    lexLt a b = true → lexLt b a = false := by
  intro a
  induction a with
  | nil => intro b h; cases b <;> simp [lexLt]
  | cons x xs ih =>
    intro b h
    cases b with
    | nil => simp [lexLt] at h
    | cons y ys =>
      rw [lexLt_cons_iff] at h
      rcases h with h | ⟨heq, h⟩
      · cases hb : lexLt (y :: ys) (x :: xs) with
        | false => rfl
        | true =>
          rw [lexLt_cons_iff] at hb
          omega
      · cases hb : lexLt (y :: ys) (x :: xs) with
        | false => rfl
        | true =>
          rw [lexLt_cons_iff] at hb
          rcases hb with hb | ⟨_, hb⟩
          · omega
          · rw [ih ys h] at hb
            exact absurd hb (by simp)

lemma lexLt_eq_of_both_false : ∀ (a b : List Char),
    lexLt a b = false → lexLt b a = false → a = b := by
  intro a
  induction a with
  | nil =>
    intro b hab _
    cases b with
    | nil => rfl
    | cons y ys => simp [lexLt] at hab
  | cons x xs ih =>
    intro b hab hba
    cases b with
    | nil => simp [lexLt] at hba
    | cons y ys =>
      have hx : x.toNat = y.toNat := by
        by_contra hne
        rcases Nat.lt_or_ge x.toNat y.toNat with h | h
        · rw [(lexLt_cons_iff x y xs ys).2 (Or.inl h)] at hab
          exact absurd hab (by simp)
        · have h' : y.toNat < x.toNat := by omega
          rw [(lexLt_cons_iff y x ys xs).2 (Or.inl h')] at hba
          exact absurd hba (by simp)
      have hxs : lexLt xs ys = false := by
        cases hc : lexLt xs ys with
        | false => rfl
        | true =>
          rw [(lexLt_cons_iff x y xs ys).2 (Or.inr ⟨hx, hc⟩)] at hab
          exact absurd hab (by simp)
      have hys : lexLt ys xs = false := by
        cases hc : lexLt ys xs with
        | false => rfl
        | true =>
          rw [(lexLt_cons_iff y x ys xs).2 (Or.inr ⟨hx.symm, hc⟩)] at hba
          exact absurd hba (by simp)
      rw [charToNatInj hx, ih ys hxs hys]

lemma lexLt_trans : ∀ (a b c : List Char),
    lexLt a b = true → lexLt b c = true → lexLt a c = true := by
  intro a
  induction a with
  | nil =>
    intro b c hab hbc
    cases b with
    | nil => simp [lexLt] at hab
    | cons y ys =>
      cases c with
      | nil => simp [lexLt] at hbc
      | cons z zs => simp [lexLt]
  | cons x xs ih =>
    intro b c hab hbc
    cases b with
    | nil => simp [lexLt] at hab
    | cons y ys =>
      cases c with
      | nil => simp [lexLt] at hbc
      | cons z zs =>
        rw [lexLt_cons_iff] at hab hbc ⊢
        rcases hab with hab | ⟨hab1, hab2⟩
        · rcases hbc with hbc | ⟨hbc1, _⟩
          · exact Or.inl (by omega)
          · exact Or.inl (by omega)
        · rcases hbc with hbc | ⟨hbc1, hbc2⟩
          · exact Or.inl (by omega)
          · exact Or.inr ⟨by omega, ih ys zs hab2 hbc2⟩

lemma stringDataInj {a b : String} (h : a.data = b.data) : a = b := by
  cases a
  cases b
  simp at h
  rw [h]

instance : IsTotal String nameLe where
  total a b := by
    unfold nameLe
    cases h : strcmpLt b a with
    | false => exact Or.inl rfl
    | true => exact Or.inr (lexLt_asymm b.data a.data h)

instance : IsTrans String nameLe where
  trans a b c hab hbc := by
    unfold nameLe at *
    unfold strcmpLt at *
    cases h : lexLt c.data a.data with
    | false => rfl
    | true =>
      exfalso
      cases hbc' : lexLt b.data c.data with
      | true =>
        rw [lexLt_trans b.data c.data a.data hbc' h] at hab
        exact absurd hab (by simp)
      | false =>
        have hbceq : b.data = c.data :=
          lexLt_eq_of_both_false b.data c.data hbc' hbc
        rw [← hbceq] at h
        rw [h] at hab
        exact absurd hab (by simp)

instance : IsAntisymm String nameLe where
  antisymm a b hab hba :=
    stringDataInj
      (lexLt_eq_of_both_false a.data b.data hba hab)

/-- Permutation invariance of the protocol sort: the sorted name list is
the unique `nameLe`-sorted permutation, so it depends only on the multiset
of names. -/
lemma sortNames_eq_of_perm {l1 l2 : List String} (h : l1.Perm l2) :
    sortNames l1 = sortNames l2 :=
  List.eq_of_perm_of_sorted
    ((List.perm_insertionSort nameLe l1).trans
      (h.trans (List.perm_insertionSort nameLe l2).symm))
    (List.sorted_insertionSort nameLe l1)
    (List.sorted_insertionSort nameLe l2)

/-- The trivial decoder that fails on every name; used to instantiate the
decoder parameters in concrete witnesses. -/
def noDecode : String → Option Node := fun _ => none

/-- C1: for every interface (protocol) composition descriptor, the order of
entries in the built ProtocolList's TypeList is a pure function of the
interface name strings under byte-wise lexicographic comparison: two
descriptors listing the same interface set in different orders produce
identical ProtocolList trees, independent of registration order or pointer
values (the embedding carries no pointer values, and the registration
order is the list order, which the sort cancels). -/
theorem claimC1_protocol_order_canonical
    (demangleTypeAsNode demangleSymbolAsNode : String → Option Node)
    (l1 l2 : List String) (h : l1.Perm l2) :
    build demangleTypeAsNode demangleSymbolAsNode (Metadata.existential l1) =
      build demangleTypeAsNode demangleSymbolAsNode (Metadata.existential l2) := by
  simp [build, sortNames_eq_of_perm h]

theorem claimC1_witness :
    (["B", "A"].Perm ["A", "B"]) ∧
      build noDecode noDecode (Metadata.existential ["B", "A"]) =
        build noDecode noDecode (Metadata.existential ["A", "B"]) :=
  ⟨by decide,
   claimC1_protocol_order_canonical noDecode noDecode ["B", "A"] ["A", "B"]
     (by decide)⟩

/-- C2, counterexample: the claim "if the recursive build of any function
argument type, the function return type, or any tuple element type yields
no result, then the enclosing function or tuple build also yields no
result" is false at the one-argument function descriptor whose argument is
an Opaque descriptor: the argument build is null, yet the function build
returns a node (the null sub-result is stored as a child, lines 223–257
perform no null check). -/
theorem claimC2_counterexample :
    build noDecode noDecode Metadata.rawBuffer = none ∧
      build noDecode noDecode
        (Metadata.function FunctionConvention.Swift
          [(Metadata.rawBuffer, false)] Metadata.rawBuffer false) ≠ none := by
  constructor
  · simp [build]
  · rw [build_function_eq]
    simp

/-- C2, amended: failed sub-builds of function arguments, the function
return type, tuple elements, and the existential-metatype instance are not
propagated: the function, tuple, and existential-metatype builders always
return a node, and the (possibly null) sub-result is installed as the
corresponding child — shown explicitly for the existential-metatype case,
whose sole child is exactly the instance's build result. -/
theorem claimC2_amended_no_propagation
    (demangleTypeAsNode demangleSymbolAsNode : String → Option Node) :
    (∀ conv args res thr,
        build demangleTypeAsNode demangleSymbolAsNode
          (Metadata.function conv args res thr) ≠ none) ∧
    (∀ labels es,
        build demangleTypeAsNode demangleSymbolAsNode
          (Metadata.tuple labels es) ≠ none) ∧
    (∀ t, build demangleTypeAsNode demangleSymbolAsNode
        (Metadata.existentialMetatype t) =
          some (Node.mk Kind.ExistentialMetatype none
            [build demangleTypeAsNode demangleSymbolAsNode t])) := by
  refine ⟨?_, ?_, ?_⟩
  · intro conv args res thr
    rw [build_function_eq]
    simp
  · intro labels es
    rw [build_tuple_eq]
    simp
  · intro t
    simp [build]

/-- C5: a function-type descriptor with exactly one argument gets an
`ArgumentTuple` whose sole child is that argument's (possibly
InOut-wrapped) tree directly, with no `NonVariadicTuple` wrapper; with two
or more arguments, all argument trees are wrapped as children of one
`NonVariadicTuple` inside the `ArgumentTuple` (lines 235–246). -/
theorem claimC5_single_vs_multi_argument
    (demangleTypeAsNode demangleSymbolAsNode : String → Option Node)
    (conv : FunctionConvention) (thr : Bool) (res m : Metadata) (flag : Bool)
    (a b : Metadata × Bool) (rest : List (Metadata × Bool)) :
    build demangleTypeAsNode demangleSymbolAsNode
        (Metadata.function conv [(m, flag)] res thr) =
      some (Node.mk (convKind conv) none
        ((if thr then [some (Node.mk Kind.ThrowsAnnot none [])] else []) ++
         [some (Node.mk Kind.ArgumentTuple none
            [inOutWrap (build demangleTypeAsNode demangleSymbolAsNode m) flag]),
          some (Node.mk Kind.ReturnType none
            [build demangleTypeAsNode demangleSymbolAsNode res])])) ∧
    build demangleTypeAsNode demangleSymbolAsNode
        (Metadata.function conv (a :: b :: rest) res thr) =
      some (Node.mk (convKind conv) none
        ((if thr then [some (Node.mk Kind.ThrowsAnnot none [])] else []) ++
         [some (Node.mk Kind.ArgumentTuple none
            [some (Node.mk Kind.NonVariadicTuple none
              ((a :: b :: rest).map (fun p =>
                 inOutWrap (build demangleTypeAsNode demangleSymbolAsNode p.1) p.2)))]),
          some (Node.mk Kind.ReturnType none
            [build demangleTypeAsNode demangleSymbolAsNode res])])) := by
  constructor
  · rw [build_function_eq]
    simp [frontNP]
  · have hlen : 1 < (a :: b :: rest).length := by
      simp
    rw [build_function_eq, if_pos hlen]

/-- C6: evaluation of the zero-argument function path.  Contrary to the
claim (and as the spec's own DESIGN NOTES flag), the code takes the
`inputs.front()` branch on an empty argument vector — undefined behaviour,
modelled as the null pointer — so the `ArgumentTuple` wraps a null child,
not an explicit empty `NonVariadicTuple`. -/
theorem claimC6_zero_arg_eval :
    build noDecode noDecode
        (Metadata.function FunctionConvention.Swift [] Metadata.rawBuffer false) =
      some (Node.mk Kind.FunctionType none
        [some (Node.mk Kind.ArgumentTuple none [none]),
         some (Node.mk Kind.ReturnType none [none])]) := by
  rw [build_function_eq]
  simp [frontNP, convKind, build]

/-- C8: building an existential-metatype descriptor over `T` yields
`ExistentialMetatype(buildTree(T))` with no extra `Type` wrapper, while a
plain metatype descriptor over `T` yields `Metatype(Type(buildTree(T)))`
with the extra wrapper — the two kinds differ exactly in this wrapper
(lines 197–203 and 259–267). -/
theorem claimC8_metatype_wrapper_asymmetry
    (demangleTypeAsNode demangleSymbolAsNode : String → Option Node)
    (t : Metadata) :
    build demangleTypeAsNode demangleSymbolAsNode
        (Metadata.existentialMetatype t) =
      some (Node.mk Kind.ExistentialMetatype none
        [build demangleTypeAsNode demangleSymbolAsNode t]) ∧
    build demangleTypeAsNode demangleSymbolAsNode (Metadata.metatype t) =
      some (Node.mk Kind.Metatype none
        [some (Node.mk Kind.Typ none
          [build demangleTypeAsNode demangleSymbolAsNode t])]) := by
  constructor <;> simp [build]

/-- C3: for a nominal-type descriptor with generic-parameter count greater
than zero, if any generic argument's build yields no result the whole
build yields no result; otherwise the result wraps the base nominal node
and a `TypeList` of all argument trees under the kind-appropriate
`BoundGenericClass/Enum/Structure` node (lines 87–106). -/
theorem claimC3_generic_propagation
    (demangleTypeAsNode demangleSymbolAsNode : String → Option Node)
    (k : NominalKind) (parent : Option Metadata) (name : String)
    (gargs : List Metadata) (h : 0 < gargs.length) :
    ((∃ g ∈ gargs, build demangleTypeAsNode demangleSymbolAsNode g = none) →
        build demangleTypeAsNode demangleSymbolAsNode
          (Metadata.nominal k parent name gargs) = none) ∧
    ((∀ g ∈ gargs, build demangleTypeAsNode demangleSymbolAsNode g ≠ none) →
        build demangleTypeAsNode demangleSymbolAsNode
          (Metadata.nominal k parent name gargs) =
          some (Node.mk (boundGenericKind k) none
            [nominalBase demangleTypeAsNode demangleSymbolAsNode parent name,
             some (Node.mk Kind.TypeList none
               (gargs.map (build demangleTypeAsNode demangleSymbolAsNode)))])) := by
  constructor
  · rintro ⟨g, hg, hnone⟩
    rw [build_nominal_eq, if_pos h, if_pos]
    exact List.any_eq_true.2
      ⟨build demangleTypeAsNode demangleSymbolAsNode g,
       List.mem_map_of_mem _ hg, by simp [hnone]⟩
  · intro hall
    rw [build_nominal_eq, if_pos h, if_neg]
    intro hc
    rcases List.any_eq_true.1 hc with ⟨x, hx, hxn⟩
    rcases List.mem_map.1 hx with ⟨g, hg, rfl⟩
    exact hall g hg (Option.isNone_iff_eq_none.1 hxn)

theorem claimC3_witness :
    (0 < [Metadata.tuple none []].length) ∧
      build noDecode noDecode
        (Metadata.nominal NominalKind.Struct none "S" [Metadata.tuple none []]) =
        some (Node.mk Kind.BoundGenericStructure none
          [none,
           some (Node.mk Kind.TypeList none
             [some (Node.mk Kind.NonVariadicTuple none [])])]) := by
  refine ⟨by decide, ?_⟩
  have h := (claimC3_generic_propagation noDecode noDecode NominalKind.Struct
    none "S" [Metadata.tuple none []] (by decide)).2
    (by
      intro g hg
      simp at hg
      subst hg
      rw [build_tuple_eq]
      simp)
  rw [h]
  simp [nominalBase, noDecode, boundGenericKind, build_tuple_eq, tupleCombine]

/-- A concrete base-name decoder with the shape the nominal builder
expects (`Type -> Struct(Module, Identifier)`), used in witnesses. -/
def structDecoder : String → Option Node := fun _ =>
  some (Node.mk Kind.Typ none
    [some (Node.mk Kind.Struct none
      [some (Node.mk Kind.Module (some "M") []),
       some (Node.mk Kind.Identifier (some "Foo") [])])])

/-- C4: for a nominal-type descriptor with a parent, given that the parent
build succeeds and the base-name decode has the expected
`Type(nominal(first, second))` shape, the rebuilt base is a `Type` node
whose inner nominal node (same kind as the decoded one) has the parent's
unwrapped node — not a `Module` node — as first child and the preserved
second child (the identifier); for a non-generic such descriptor this is
the whole build result (lines 71–85). -/
theorem claimC4_parent_nesting
    (demangleTypeAsNode demangleSymbolAsNode : String → Option Node)
    (k : NominalKind) (p : Metadata) (name : String)
    (pn inner : Node) (c0 c1 : Option Node)
    (hp : build demangleTypeAsNode demangleSymbolAsNode p = some pn)
    (hbn : demangleTypeAsNode name = some (Node.mk Kind.Typ none [some inner]))
    (hinner : inner.children = [c0, c1])
    (hnm : kindOf (unwrapType (some pn)) ≠ Kind.Module) :
    nominalBase demangleTypeAsNode demangleSymbolAsNode (some p) name =
      some (Node.mk Kind.Typ none
        [some (Node.mk inner.kind none [unwrapType (some pn), c1])]) ∧
    build demangleTypeAsNode demangleSymbolAsNode
        (Metadata.nominal k (some p) name []) =
      some (Node.mk Kind.Typ none
        [some (Node.mk inner.kind none [unwrapType (some pn), c1])]) ∧
    kindOf (unwrapType (some pn)) ≠ Kind.Module := by
  have hbase : nominalBase demangleTypeAsNode demangleSymbolAsNode (some p) name =
      some (Node.mk Kind.Typ none
        [some (Node.mk inner.kind none [unwrapType (some pn), c1])]) := by
    obtain ⟨ik, it, ic⟩ := inner
    simp only [Node.children] at hinner
    subst hinner
    simp [nominalBase, attachParent, hp, hbn, childOf, kindOf,
      Node.children, Node.kind, List.getD]
  refine ⟨hbase, ?_, hnm⟩
  rw [build_nominal_eq]
  simpa using hbase

theorem claimC4_witness :
    build structDecoder noDecode (Metadata.tuple none []) =
        some (Node.mk Kind.NonVariadicTuple none []) ∧
      build structDecoder noDecode
        (Metadata.nominal NominalKind.Struct (some (Metadata.tuple none []))
          "Foo" []) =
      some (Node.mk Kind.Typ none
        [some (Node.mk Kind.Struct none
          [some (Node.mk Kind.NonVariadicTuple none []),
           some (Node.mk Kind.Identifier (some "Foo") [])])]) := by
  have hp : build structDecoder noDecode (Metadata.tuple none []) =
      some (Node.mk Kind.NonVariadicTuple none []) := by
    rw [build_tuple_eq]
    simp [tupleCombine]
  refine ⟨hp, ?_⟩
  have h := (claimC4_parent_nesting structDecoder noDecode NominalKind.Struct
    (Metadata.tuple none []) "Foo"
    (Node.mk Kind.NonVariadicTuple none [])
    (Node.mk Kind.Struct none
      [some (Node.mk Kind.Module (some "M") []),
       some (Node.mk Kind.Identifier (some "Foo") [])])
    (some (Node.mk Kind.Module (some "M") []))
    (some (Node.mk Kind.Identifier (some "Foo") []))
    hp rfl rfl (by simp [unwrapType, kindOf, childOf, Node.kind])).2.1
  rw [h]
  simp [unwrapType, kindOf, childOf, Node.kind]

/-- C10: the nominal builder inspects the recursively built parent and
installs it as the first child with no null check: when the parent's build
yields no result, the enclosing nominal build still returns a node — the
null parent result sits in the first child slot (reading the kind of the
null parent pointer is the source's undefined behaviour, modelled as the
junk kind), so the access is well-defined only under the precondition that
the parent build succeeds with the expected shape (lines 71–85). -/
theorem claimC10_parent_no_null_check
    (demangleTypeAsNode demangleSymbolAsNode : String → Option Node)
    (k : NominalKind) (p : Metadata) (name : String)
    (h : build demangleTypeAsNode demangleSymbolAsNode p = none) :
    build demangleTypeAsNode demangleSymbolAsNode
        (Metadata.nominal k (some p) name []) =
      some (Node.mk Kind.Typ none
        [some (Node.mk (kindOf (childOf (demangleTypeAsNode name) 0)) none
          [none, childOf (childOf (demangleTypeAsNode name) 0) 1])]) ∧
    build demangleTypeAsNode demangleSymbolAsNode
        (Metadata.nominal k (some p) name []) ≠ none := by
  have hb : build demangleTypeAsNode demangleSymbolAsNode
      (Metadata.nominal k (some p) name []) =
      some (Node.mk Kind.Typ none
        [some (Node.mk (kindOf (childOf (demangleTypeAsNode name) 0)) none
          [none, childOf (childOf (demangleTypeAsNode name) 0) 1])]) := by
    rw [build_nominal_eq]
    simp [nominalBase, attachParent, h, unwrapType, kindOf]
  exact ⟨hb, by rw [hb]; simp⟩

theorem claimC10_witness :
    build noDecode noDecode Metadata.rawBuffer = none ∧
      build noDecode noDecode
        (Metadata.nominal NominalKind.Class (some Metadata.rawBuffer) "C" []) =
      some (Node.mk Kind.Typ none
        [some (Node.mk Kind.Invalid none [none, none])]) := by
  have h0 : build noDecode noDecode Metadata.rawBuffer = none := by
    simp [build]
  refine ⟨h0, ?_⟩
  have h := (claimC10_parent_no_null_check noDecode noDecode NominalKind.Class
    Metadata.rawBuffer "C" h0).1
  rw [h]
  simp [noDecode, childOf, kindOf]

lemma tupleCombine_none (tys : List (Option Node)) :
    tupleCombine none tys =
      tys.map (fun ty => some (Node.mk Kind.TupleElement none [ty])) := by
  induction tys with
  | nil => rfl
  | cons ty tys ih => simp [tupleCombine, ih]

lemma tupleCombine_no_space {ls : List Char} (h : ' ' ∉ ls)
    (tys : List (Option Node)) :
    tupleCombine (some ls) tys =
      tys.map (fun ty => some (Node.mk Kind.TupleElement none [ty])) := by
  induction tys with
  | nil => rfl
  | cons ty tys ih => simp [tupleCombine, h, ih]

/-- C7: when a label string is present, a slot whose remaining label
string still contains a space consumes exactly one segment — the
characters before the next space, the cursor advancing past the space —
and is labeled exactly when the segment is non-empty (an empty segment,
i.e. two adjacent separators, yields an unlabeled slot); a 3-element tuple
with label string `"x  z "` yields elements named `x`, unnamed, `z`; and
when the label string is entirely absent no element is labeled
(lines 272–299). -/
theorem claimC7_label_segments :
    (∀ (ls : List Char) (ty : Option Node) (tys : List (Option Node)),
        ' ' ∈ ls →
        tupleCombine (some ls) (ty :: tys) =
          (if (ls.takeWhile (fun c => c ≠ ' ')).isEmpty then
             some (Node.mk Kind.TupleElement none [ty])
           else
             some (Node.mk Kind.TupleElement none
               [some (Node.mk Kind.TupleElementName
                  (some (String.mk (ls.takeWhile (fun c => c ≠ ' ')))) []),
                ty])) ::
            tupleCombine (some ((ls.dropWhile (fun c => c ≠ ' ')).drop 1)) tys) ∧
    (build noDecode noDecode
        (Metadata.tuple (some ['x', ' ', ' ', 'z', ' '])
          [Metadata.tuple none [], Metadata.tuple none [], Metadata.tuple none []]) =
      some (Node.mk Kind.NonVariadicTuple none
        [some (Node.mk Kind.TupleElement none
           [some (Node.mk Kind.TupleElementName (some (String.mk ['x'])) []),
            some (Node.mk Kind.NonVariadicTuple none [])]),
         some (Node.mk Kind.TupleElement none
           [some (Node.mk Kind.NonVariadicTuple none [])]),
         some (Node.mk Kind.TupleElement none
           [some (Node.mk Kind.TupleElementName (some (String.mk ['z'])) []),
            some (Node.mk Kind.NonVariadicTuple none [])])])) ∧
    (∀ (demangleTypeAsNode demangleSymbolAsNode : String → Option Node)
        (es : List Metadata),
        build demangleTypeAsNode demangleSymbolAsNode (Metadata.tuple none es) =
          some (Node.mk Kind.NonVariadicTuple none
            (es.map (fun t =>
              some (Node.mk Kind.TupleElement none
                [build demangleTypeAsNode demangleSymbolAsNode t]))))) := by
  refine ⟨?_, ?_, ?_⟩
  · intro ls ty tys h
    rw [tupleCombine]
    simp [h]
    split <;> rfl
  · simp [build_tuple_eq, build, tupleCombine]
  · intro dt ds es
    rw [build_tuple_eq, tupleCombine_none, List.map_map]
    rfl

theorem claimC7_witness :
    (' ' ∈ ['a', ' ']) ∧
      tupleCombine (some ['a', ' ']) [none] =
        [some (Node.mk Kind.TupleElement none
          [some (Node.mk Kind.TupleElementName (some (String.mk ['a'])) []),
           none])] := by
  refine ⟨by decide, ?_⟩
  have h := claimC7_label_segments.1 ['a', ' '] none [] (by decide)
  rw [h]
  simp [tupleCombine]

/-- C9: with a non-null label string, an element is labeled only when its
segment is terminated by a space in the remaining label string: once no
space remains (including a non-empty final segment without trailing
space), that element and all subsequent elements are built unlabeled and
the label cursor no longer advances — every suffix is processed with the
unchanged remainder `ls` (lines 276–290, the `strchr` scan). -/
theorem claimC9_no_space_unlabeled
    (demangleTypeAsNode demangleSymbolAsNode : String → Option Node)
    (ls : List Char) (es : List Metadata) (tys : List (Option Node))
    (h : ' ' ∉ ls) :
    tupleCombine (some ls) tys =
      tys.map (fun ty => some (Node.mk Kind.TupleElement none [ty])) ∧
    build demangleTypeAsNode demangleSymbolAsNode
        (Metadata.tuple (some ls) es) =
      some (Node.mk Kind.NonVariadicTuple none
        (es.map (fun t =>
          some (Node.mk Kind.TupleElement none
            [build demangleTypeAsNode demangleSymbolAsNode t])))) := by
  refine ⟨tupleCombine_no_space h tys, ?_⟩
  rw [build_tuple_eq, tupleCombine_no_space h, List.map_map]
  rfl

theorem claimC9_witness :
    (' ' ∉ ['a', 'b']) ∧
      build noDecode noDecode
        (Metadata.tuple (some ['a', 'b']) [Metadata.rawBuffer]) =
      some (Node.mk Kind.NonVariadicTuple none
        [some (Node.mk Kind.TupleElement none [none])]) := by
  refine ⟨by decide, ?_⟩
  have h := (claimC9_no_space_unlabeled noDecode noDecode ['a', 'b']
    [Metadata.rawBuffer] [] (by decide)).2
  rw [h]
  simp [build]
